import Mathlib

/-!
Verification development for the atxcf repository (src/atxcf/PriceNetwork.py and
src/atxcf/settings.py).

The PriceNetwork component is embedded as a fuel-indexed interpreter `run` over a
`Call` inductive: the mutually recursive Python methods
(`_do_get_price`, `_get_basket_value`, `get_price`, `_get_price_graph`,
`_generate_graph`, `get_markets`) can recurse into each other without bound
(baskets may reference baskets), so every recursive call consumes one unit of
fuel and the interpreter is structurally recursive on the fuel.  All results are
therefore computable and kernel-reducible.  Machine floats are modelled as exact
rationals (ℚ).

External collaborators that are not part of the two source files are modelled as
inputs:
  - the `PriceSource.AllSources` base class (symbols, markets, base symbols, the
    stored-price cache accessed through `_has_stored_price` /
    `_get_stored_price` / `_get_last_stored_price_time`, and the fresh-quote
    `get_price`) becomes the fields of `Env`;
  - `settings.get_option("price_update_interval")` becomes `Env.interval`
    (`none` models a missing option, which raises `SettingsError` in Python);
  - `settings.get_settings()["Baskets"]` becomes `Env.baskets`;
  - `time.time()` becomes `Env.now`;
  - `networkx.shortest_path` is modelled by a breadth-first search returning a
    hop-minimal path; when no path exists networkx raises `NetworkXNoPath`
    (which is not a `PriceSourceError` subclass), modelled by `Err.noPathNX`.

Python exception classes are modelled by the `Err` inductive.  Python floats'
truthiness test `not last_price` (true for both `None` and `0.0`) is modelled on
`Option ℚ` by `o.getD 0 = 0`.
-/

unseal Rat.mul Rat.add Rat.sub

/-- Exception kinds that can flow through the PriceNetwork code.
`priceSource` is `PriceSource.PriceSourceError`; `priceNetwork` is
`PriceNetworkError`, a subclass of it; `settingsErr` is `settings.SettingsError`
(a `RuntimeError`, not a `PriceSourceError`); `noPathNX` is
`networkx.NetworkXNoPath`; `indexError` models a Python `IndexError`;
`outOfFuel` is the fuel artifact of the model. -/
inductive Err where
  | priceSource (msg : String)
  | priceNetwork (msg : String)
  | settingsErr (msg : String)
  | noPathNX (msg : String)
  | indexError
  | outOfFuel
  | modelError
deriving DecidableEq, Repr

/-- Whether an exception is caught by `except PriceSource.PriceSourceError`:
true exactly for `PriceSourceError` and its subclass `PriceNetworkError`. -/
def is_price_source_err : Err → Bool
  | .priceSource _ => true
  | .priceNetwork _ => true
  | _ => false

/-- Whether an exception is a `PriceNetworkError` (the spec's NoRouteError and
ParseError are both raised as this class). -/
def is_price_network_err : Err → Bool
  | .priceNetwork _ => true
  | _ => false

/-- Diagnostic message carried by the exception (Python `e.message`). -/
def err_message : Err → String
  | .priceSource m => m
  | .priceNetwork m => m
  | .settingsErr m => m
  | .noPathNX m => m
  | _ => ""

/-- An undirected networkx graph: nodes are asset symbols, edges carry a
`last_price` attribute.  An edge is stored once with the orientation of its
first `add_edge` call. -/
structure Graph where
  nodes : List String
  edges : List (String × String × ℚ)
deriving DecidableEq, Repr

/-- `G.add_node(v)` semantics: appends the node if it is not present. -/
def addNode (G : Graph) (v : String) : Graph :=
  if G.nodes.contains v then G else { G with nodes := G.nodes ++ [v] }

/-- Whether an edge between `a` and `b` (in either orientation) is present. -/
def edgeMatches (a b : String) (e : String × String × ℚ) : Bool :=
  (e.1 == a && e.2.1 == b) || (e.1 == b && e.2.1 == a)

/-- `G.add_edge(a, b, last_price = w)` semantics: adds the endpoints as nodes if
missing, and adds the undirected edge, overwriting the attribute if the edge
already exists. -/
def addEdge (G : Graph) (a b : String) (w : ℚ) : Graph :=
  let G1 := addNode (addNode G a) b
  if G1.edges.any (edgeMatches a b) then
    { G1 with edges := G1.edges.map (fun e => if edgeMatches a b e then (e.1, e.2.1, w) else e) }
  else
    { G1 with edges := G1.edges ++ [(a, b, w)] }

/-- Adjacency of `v`: every opposite endpoint of an incident edge, in edge
insertion order. -/
def neighbors (G : Graph) (v : String) : List String :=
  G.edges.foldl
    (fun acc e =>
      if e.1 == v then acc ++ [e.2.1]
      else if e.2.1 == v then acc ++ [e.1]
      else acc) []

/-- One breadth-first search: dequeues vertices, recording a parent for every
newly discovered vertex, until the target is dequeued.  Returns the parent list
on success.  The fuel only has to dominate the number of dequeues, which is
bounded because a vertex is enqueued at most once. -/
def bfsAux (G : Graph) (t : String) : Nat → List String → List (String × String) →
    Option (List (String × String))
  | 0, _, _ => none
  | _ + 1, [], _ => none
  | fuel + 1, v :: rest, parents =>
    if v = t then some parents
    else
      let step := (neighbors G v).foldl
        (fun (acc : List String × List (String × String)) n =>
          if (acc.2.find? (fun p => p.1 == n)).isSome then acc
          else (acc.1 ++ [n], acc.2 ++ [(n, v)]))
        (rest, parents)
      bfsAux G t fuel step.1 step.2

/-- Reconstructs the path from `s` to the current vertex by following parents. -/
def buildPath (parents : List (String × String)) (s : String) :
    Nat → String → List String → Option (List String)
  | 0, _, _ => none
  | fuel + 1, v, acc =>
    if v = s then some (s :: acc)
    else
      match parents.find? (fun p => p.1 == v) with
      | none => none
      | some pr => buildPath parents s fuel pr.2 (v :: acc)

/-- Model of `networkx.shortest_path(G, s, t)` (unweighted): a hop-minimal path
from `s` to `t` found by breadth-first search, `some [s]` when `s = t`, and
`none` when `t` is unreachable from `s` (networkx raises `NetworkXNoPath`
there). -/
def shortestPath (G : Graph) (s t : String) : Option (List String) :=
  if s = t then (if G.nodes.contains s then some [s] else none)
  else
    match bfsAux G t (G.nodes.length + 2 * G.edges.length + 2) [s] [(s, s)] with
    | none => none
    | some parents => buildPath parents s (parents.length + 1) t []

/-- The collaborators of `PriceNetwork` that live outside the two source files:
the `AllSources` quote source (symbols, markets, base symbols, stored-price
cache, fresh quotes), the settings values the code reads, and the clock. -/
structure Env where
  symbols : List String
  markets : List String
  baseSymbols : List String
  storedPrice : String → Option (ℚ × ℚ)
  quote : String → String → ℚ → Except String ℚ
  baskets : List (String × List (String × ℚ))
  interval : Option ℚ
  now : ℚ

/-- The mutable state of a `PriceNetwork` object: the cached `_price_graph`
attribute plus two effect counters that make graph consultations and external
quote requests observable (`graphAccesses` counts `_get_price_graph` calls,
`quoteCalls` counts fresh-quote requests to the quote source). -/
structure PNState where
  priceGraph : Option Graph
  graphAccesses : Nat
  quoteCalls : Nat
deriving DecidableEq, Repr

/-- Bumps the fresh-quote counter. -/
def bump_quote (st : PNState) : PNState :=
  { st with quoteCalls := st.quoteCalls + 1 }

/-- Result of `_generate_graph`, with the diagnostics the Python code prints:
markets whose price resolved (edge added) and markets dropped because their
quote failed. -/
structure GraphBuild where
  graph : Graph
  goodMarkets : List (String × String × ℚ)
  badMarkets : List String
  errorMsgs : List String
deriving DecidableEq, Repr

/-- The call shapes of the mutually recursive PriceNetwork methods, packed into
one inductive so that the interpreter can be structurally recursive on fuel.
`basketSum`, `foldHops`, `probe` and `marketLoop` are the loop bodies of
`_get_basket_value`, `get_price`, `get_markets` and `_generate_graph`. -/
inductive Call where
  | doGetPrice (fr toA : String) (v : ℚ) (gl : Bool)
  | basketValue (name toA : String) (gl : Bool)
  | basketSum (entries : List (String × ℚ)) (toA : String) (gl : Bool) (acc : ℚ)
  | getPrice (fr toA : String) (v : ℚ) (gl : Bool)
  | foldHops (pairs : List (String × String)) (v : ℚ) (gl : Bool)
  | priceGraph
  | genGraph
  | markets
  | probe (pairs : List (String × String)) (acc : List String)
  | marketLoop (ms : List String) (G : Graph) (good : List (String × String × ℚ))
      (bad : List String) (errs : List String)

deriving instance DecidableEq for Except

/-- Typed results of the different call shapes. -/
inductive Res where
  | fuel
  | price (r : Except Err ℚ)
  | graph (r : Except Err Graph)
  | build (r : Except Err GraphBuild)
  | strs (r : Except Err (List String))
deriving DecidableEq, Repr

/-- Extracts a price result. -/
def priceOf : Res → Except Err ℚ
  | .price r => r
  | .fuel => .error .outOfFuel
  | _ => .error .modelError

/-- Extracts a graph result. -/
def graphOf : Res → Except Err Graph
  | .graph r => r
  | .fuel => .error .outOfFuel
  | _ => .error .modelError

/-- Extracts a graph-build result. -/
def buildOf : Res → Except Err GraphBuild
  | .build r => r
  | .fuel => .error .outOfFuel
  | _ => .error .modelError

/-- Extracts a string-list result. -/
def strsOf : Res → Except Err (List String)
  | .strs r => r
  | .fuel => .error .outOfFuel
  | _ => .error .modelError

/-- Whether `basket_name` is a key of the Baskets dict (`_is_basket`). -/
def is_basket (env : Env) (name : String) : Bool :=
  (env.baskets.find? (fun b => b.1 == name)).isSome

/-- The Baskets dict lookup used by `_get_basket_value`. -/
def lookup_basket (env : Env) (name : String) : Option (List (String × ℚ)) :=
  (env.baskets.find? (fun b => b.1 == name)).map (fun b => b.2)

/-- `get_symbols`: basket names first, then the quote source's symbols. -/
def get_symbols (env : Env) : List String :=
  env.baskets.map (fun b => b.1) ++ env.symbols

/-- Model of Python `s.split("/")` (split on every slash; never empty). -/
def splitAllAux : List Char → List Char → List String
  | [], acc => [String.mk acc.reverse]
  | c :: rest, acc =>
    if c = '/' then String.mk acc.reverse :: splitAllAux rest []
    else splitAllAux rest (c :: acc)

/-- Python `s.split("/")`. -/
def py_split_all (s : String) : List String :=
  splitAllAux s.toList []

/-- Scans for the first slash, returning the pieces before and after it. -/
def splitOnceAux : List Char → List Char → Option (String × String)
  | [], _ => none
  | c :: rest, acc =>
    if c = '/' then some (String.mk acc.reverse, String.mk rest)
    else splitOnceAux rest (c :: acc)

/-- Model of Python `string.split(s, "/", 1)`: at most one split, at the first
slash. -/
def py_split_once (s : String) : List String :=
  match splitOnceAux s.toList [] with
  | none => [s]
  | some (a, b) => [a, b]

/-- Whitespace characters removed by Python `str.strip()`. -/
def isPySpace (c : Char) : Bool :=
  c == ' ' || c == '\t' || c == '\n' || c == '\r' || c == '\x0b' || c == '\x0c'

/-- Model of Python `str.strip()`. -/
def py_strip (s : String) : String :=
  String.mk (((s.toList.dropWhile isPySpace).reverse.dropWhile isPySpace).reverse)

/-- The fuel-indexed interpreter of the PriceNetwork methods.  Each case is the
direct translation of the corresponding Python body; every method-to-method
call and every loop iteration consumes one unit of fuel.

  - `doGetPrice` is `_do_get_price` (PriceNetwork.py lines 70-92): reads
    `price_update_interval` (raising `SettingsError` if absent), reuses the
    stored price scaled by `value` when the entry is fresh or `get_last` is
    set, but — Python truthiness — only when that scaled product is nonzero;
    otherwise falls through to basket valuation (note: called without
    `get_last`) and then to a fresh quote.
  - `basketValue`/`basketSum` are `_get_basket_value` (lines 46-57).
  - `getPrice`/`foldHops` are `get_price` (lines 225-240): equal assets short
    circuit, then shortest path (networkx raises `NetworkXNoPath` when there is
    none, before the dead `len(sh_p) <= 1` guard), then the per-edge fold.
  - `priceGraph` is `_get_price_graph`/`init_graph` (lines 149-162).
  - `genGraph`/`marketLoop` are `_generate_graph` (lines 95-146): a stored
    price is used regardless of age, else `_do_get_price`; a
    `PriceSourceError` drops the market into the diagnostics, any other
    exception propagates.
  - `markets`/`probe` are `get_markets` (lines 206-217). -/
def run (env : Env) : Nat → Call → PNState → Res × PNState
  | 0, _, st => (.fuel, st)
  | n + 1, c, st =>
    match c with
    | .doGetPrice fr toA v gl =>
      let pairStr := fr ++ "/" ++ toA
      match env.interval with
      | none => (.price (.error (.settingsErr "No such option price_update_interval")), st)
      | some interval =>
        let lastPrice : Option ℚ :=
          match env.storedPrice pairStr with
          | some pt => if gl = true ∨ env.now - pt.2 ≤ interval then some (pt.1 * v) else none
          | none => none
        if lastPrice.getD 0 = 0 then
          if is_basket env fr then
            let pr := run env n (.basketValue fr toA false) st
            match priceOf pr.1 with
            | .ok bv => (.price (.ok (bv * v)), pr.2)
            | .error e => (.price (.error e), pr.2)
          else
            match env.quote fr toA v with
            | .ok q => (.price (.ok q), bump_quote st)
            | .error m => (.price (.error (.priceSource m)), bump_quote st)
        else (.price (.ok (lastPrice.getD 0)), st)
    | .basketValue name toA gl =>
      match lookup_basket env name with
      | none => (.price (.error (.priceNetwork ("PriceNetwork: no such basket " ++ name))), st)
      | some entries => run env n (.basketSum entries toA gl 0) st
    | .basketSum entries toA gl acc =>
      match entries with
      | [] => (.price (.ok acc), st)
      | (nm, amt) :: rest =>
        let pr := run env n (.getPrice nm toA amt gl) st
        match priceOf pr.1 with
        | .ok p => run env n (.basketSum rest toA gl (acc + p)) pr.2
        | .error e => (.price (.error e), pr.2)
    | .getPrice fr toA v gl =>
      if fr = toA then (.price (.ok v), st)
      else
        let pg := run env n .priceGraph st
        match graphOf pg.1 with
        | .error e => (.price (.error e), pg.2)
        | .ok G =>
          match shortestPath G fr toA with
          | none =>
            (.price (.error (.noPathNX ("No path between " ++ fr ++ " and " ++ toA ++ "."))), pg.2)
          | some p =>
            if p.length ≤ 1 then
              (.price (.error (.priceNetwork ("No path from " ++ fr ++ " to " ++ toA))), pg.2)
            else run env n (.foldHops (p.zip p.tail) v gl) pg.2
    | .foldHops pairs v gl =>
      match pairs with
      | [] => (.price (.ok v), st)
      | (f, t) :: rest =>
        let pr := run env n (.doGetPrice f t v gl) st
        match priceOf pr.1 with
        | .ok v2 => run env n (.foldHops rest v2 gl) pr.2
        | .error e => (.price (.error e), pr.2)
    | .priceGraph =>
      let st1 := { st with graphAccesses := st.graphAccesses + 1 }
      match st1.priceGraph with
      | some G => (.graph (.ok G), st1)
      | none =>
        let pr := run env n .genGraph st1
        match buildOf pr.1 with
        | .ok gb => (.graph (.ok gb.graph), { pr.2 with priceGraph := some gb.graph })
        | .error e => (.graph (.error e), pr.2)
    | .genGraph =>
      let mk := run env n .markets st
      match strsOf mk.1 with
      | .error e => (.build (.error e), mk.2)
      | .ok mkts =>
        run env n (.marketLoop mkts { nodes := get_symbols env, edges := [] } [] [] []) mk.2
    | .markets =>
      let pairs := (env.baskets.map (fun b => b.1)).flatMap
        (fun b => env.baseSymbols.map (fun c => (b, c)))
      let pr := run env n (.probe pairs []) st
      match strsOf pr.1 with
      | .ok bm => (.strs (.ok (bm ++ env.markets)), pr.2)
      | .error e => (.strs (.error e), pr.2)
    | .probe pairs acc =>
      match pairs with
      | [] => (.strs (.ok acc), st)
      | (b, cur) :: rest =>
        let pr := run env n (.getPrice b cur 1 true) st
        match priceOf pr.1 with
        | .ok _ => run env n (.probe rest (acc ++ [b ++ "/" ++ cur])) pr.2
        | .error e =>
          if is_price_source_err e then run env n (.probe rest acc) pr.2
          else (.strs (.error e), pr.2)
    | .marketLoop ms G good bad errs =>
      match ms with
      | [] => (.build (.ok { graph := G, goodMarkets := good, badMarkets := bad,
                             errorMsgs := errs }), st)
      | m :: rest =>
        match py_split_all m with
        | p0 :: p1 :: _ =>
          let rs : Except Err ℚ × PNState :=
            match env.storedPrice m with
            | some pt => (.ok pt.1, st)
            | none =>
              let pr := run env n (.doGetPrice p0 p1 1 false) st
              (priceOf pr.1, pr.2)
          match rs.1 with
          | .ok lp =>
            run env n (.marketLoop rest (addEdge G p0 p1 lp)
              (good ++ [(p0, p1, lp)]) bad errs) rs.2
          | .error e =>
            if is_price_source_err e then
              run env n (.marketLoop rest G good (bad ++ [p0 ++ "/" ++ p1])
                (errs ++ [p0 ++ "/" ++ p1 ++ ": " ++ err_message e])) rs.2
            else (.build (.error e), rs.2)
        | _ => (.build (.error .indexError), st)

/-- `PriceNetwork._do_get_price`. -/
def do_get_price (fuel : Nat) (env : Env) (st : PNState) (fr toA : String) (v : ℚ)
    (gl : Bool) : Except Err ℚ × PNState :=
  let pr := run env fuel (.doGetPrice fr toA v gl) st
  (priceOf pr.1, pr.2)

/-- `PriceNetwork._get_basket_value`. -/
def get_basket_value (fuel : Nat) (env : Env) (st : PNState) (name toA : String)
    (gl : Bool) : Except Err ℚ × PNState :=
  let pr := run env fuel (.basketValue name toA gl) st
  (priceOf pr.1, pr.2)

/-- `PriceNetwork.get_price`. -/
def get_price (fuel : Nat) (env : Env) (st : PNState) (fr toA : String) (v : ℚ)
    (gl : Bool) : Except Err ℚ × PNState :=
  let pr := run env fuel (.getPrice fr toA v gl) st
  (priceOf pr.1, pr.2)

/-- `PriceNetwork._get_price_graph`. -/
def get_price_graph (fuel : Nat) (env : Env) (st : PNState) :
    Except Err Graph × PNState :=
  let pr := run env fuel .priceGraph st
  (graphOf pr.1, pr.2)

/-- `PriceNetwork._generate_graph`, with the dropped-market diagnostics the
Python code prints. -/
def generate_graph (fuel : Nat) (env : Env) (st : PNState) :
    Except Err GraphBuild × PNState :=
  let pr := run env fuel .genGraph st
  (buildOf pr.1, pr.2)

/-- `PriceNetwork.get_markets`. -/
def get_markets (fuel : Nat) (env : Env) (st : PNState) :
    Except Err (List String) × PNState :=
  let pr := run env fuel .markets st
  (strsOf pr.1, pr.2)

/-- `PriceNetwork.price` (lines 243-250): splits the pair string at the first
slash only (`string.split(s, "/", 1)`), raises `PriceNetworkError` when the
split does not yield two parts (i.e. when there is no slash at all), strips
whitespace from both parts and delegates to `get_price`. -/
def price (fuel : Nat) (env : Env) (st : PNState) (s : String) (v : ℚ)
    (gl : Bool) : Except Err ℚ × PNState :=
  let parts := py_split_once s
  if parts.length ≠ 2 then
    (.error (.priceNetwork ("Invalid trade_pair_str " ++ s)), st)
  else
    get_price fuel env st (py_strip (parts.getD 0 "")) (py_strip (parts.getD 1 "")) v gl

/-- The result of the fresh-quote fallback of `_do_get_price`: the quote
source's answer, with a failure surfaced as `PriceSourceError`. -/
def quote_result (env : Env) (fr toA : String) (v : ℚ) : Except Err ℚ :=
  match env.quote fr toA v with
  | .ok q => .ok q
  | .error m => .error (.priceSource m)

/-!
Embedding of src/atxcf/settings.py.

Python dicts are modelled with an explicit reference semantics so that the
sharing behaviour of `dict.copy()` (a shallow copy) is observable: a dict value
is an association list `Obj` whose values `JVal` are scalars or *addresses* of
other dicts in a `Heap`.  The module state (`_js_settings`, `_js_settings_ts`)
is `SettSt`.  The backing JSON file is modelled as `Option (List (String ×
Json))`: `none` means the file does not exist, `some fields` is the parsed
top-level JSON object (`json.load` allocates fresh objects into the heap).
Locks and the background flush thread are concurrency artifacts outside a
shallow embedding; the lock-guarded bodies are modelled as atomic steps. -/

/-- A Python value stored in a settings dict: a string, a number, or a
reference to another dict living in the heap. -/
inductive JVal where
  | str (s : String)
  | num (q : ℚ)
  | dict (addr : Nat)
deriving DecidableEq, Repr

/-- A Python dict object: association list with unique keys. -/
abbrev Obj := List (String × JVal)

/-- The heap of dict objects; an address is an index into the list. -/
abbrev Heap := List Obj

/-- Dereferences an address. -/
def heapGet (h : Heap) (a : Nat) : Obj :=
  h.getD a []

/-- Overwrites the object at an address (in-place dict mutation). -/
def heapSet (h : Heap) (a : Nat) (o : Obj) : Heap :=
  h.set a o

/-- Python `d[k]` lookup (as an option). -/
def objGet (o : Obj) (k : String) : Option JVal :=
  (o.find? (fun p => p.1 == k)).map (fun p => p.2)

/-- Python `k in d`. -/
def objHas (o : Obj) (k : String) : Bool :=
  (objGet o k).isSome

/-- Python `d[k] = v`: replaces the binding if the key exists, else appends. -/
def objSet (o : Obj) (k : String) (v : JVal) : Obj :=
  if objHas o k then o.map (fun p => if p.1 == k then (k, v) else p)
  else o ++ [(k, v)]

/-- Python `del d[k]`. -/
def objDel (o : Obj) (k : String) : Obj :=
  o.filter (fun p => p.1 != k)

/-- Python `live.update(patch)`: sets every binding of `patch` in `live`. -/
def objMerge (live patch : Obj) : Obj :=
  patch.foldl (fun o kv => objSet o kv.1 kv.2) live

/-- A parsed JSON tree, as `json.load` would produce before our model
allocates its objects into the heap. -/
inductive Json where
  | str (s : String)
  | num (q : ℚ)
  | obj (fields : List (String × Json))

mutual
/-- Allocates a JSON tree into the heap, turning every JSON object into a
fresh dict. -/
def allocJson : Json → Heap → JVal × Heap
  | .str s, h => (.str s, h)
  | .num q, h => (.num q, h)
  | .obj fs, h =>
    let oh := allocFields fs h
    (.dict oh.2.length, oh.2 ++ [oh.1])

/-- Allocates the fields of a JSON object left to right. -/
def allocFields : List (String × Json) → Heap → Obj × Heap
  | [], h => ([], h)
  | (k, j) :: rest, h =>
    let vh := allocJson j h
    let oh := allocFields rest vh.2
    ((k, vh.1) :: oh.1, oh.2)
end

/-- Error kinds of `settings.SettingsError`, distinguished by the message the
Python code formats: a missing `options` section, an unknown option on
lookup (`get_option`) or removal (`remove_option`), and a `TypeError` from
treating a non-dict value as the options dict. -/
inductive SErr where
  | missingSection
  | noSuchOption (o : String)
  | missingOption (o : String)
  | typeErr
deriving DecidableEq, Repr

/-- The module-level state of settings.py: the heap of dict objects, the
`_js_settings` dict (held directly: it is the root object) and
`_js_settings_ts`. -/
structure SettSt where
  heap : Heap
  js : Obj
  ts : ℚ
deriving DecidableEq, Repr

/-- `get_default_options`. -/
def get_default_options : Obj :=
  [("settings_update_interval", JVal.num 300)]

/-- `init_settings`: replaces `_js_settings` with the default blob, allocating
fresh `options` and `credentials` dicts. -/
def init_settings (now : ℚ) (st : SettSt) : SettSt :=
  let aOpt := st.heap.length
  let h1 := st.heap ++ [get_default_options]
  let aCred := h1.length
  let h2 := h1 ++ [([] : Obj)]
  { heap := h2
    js := [("program_url", JVal.str "https://github.com/transfix/atxcf"),
           ("version", JVal.str "0.1"),
           ("last_updated", JVal.num now),
           ("options", JVal.dict aOpt),
           ("credentials", JVal.dict aCred)]
    ts := now }

/-- `get_settings` (settings.py lines 74-102): when `_js_settings` is the empty
dict, either seeds defaults (no backing file) or loads the backing file
wholesale (`json.load`), then returns `_js_settings.copy()` — a SHALLOW copy:
the returned `Obj` is the same association list, so every nested dict address
is shared with the live state. -/
def get_settings (file : Option (List (String × Json))) (now : ℚ) (st : SettSt) :
    Obj × SettSt :=
  if st.js.isEmpty then
    match file with
    | none =>
      let st1 := init_settings now st
      (st1.js, st1)
    | some fs =>
      let oh := allocFields fs st.heap
      (oh.1, { heap := oh.2, js := oh.1, ts := now })
  else (st.js, st)

/-- `set_settings`: merges the top-level keys of the patch into the live blob
and refreshes the timestamp. (The Python type check on non-dict arguments is
discharged by typing.) -/
def set_settings (patch : Obj) (now : ℚ) (st : SettSt) : SettSt :=
  { st with js := objMerge st.js patch, ts := now }

/-- `get_option`: `get_settings`, then `_check_options_section` (raises if the
`options` key is absent), then the option lookup (raises if absent). -/
def get_option (file : Option (List (String × Json))) (now : ℚ) (st : SettSt)
    (o : String) : Except SErr (JVal × SettSt) :=
  let r := get_settings file now st
  match objGet r.1 "options" with
  | none => .error .missingSection
  | some (.dict a) =>
    match objGet (heapGet r.2.heap a) o with
    | none => .error (.noSuchOption o)
    | some v => .ok (v, r.2)
  | some _ => .error .typeErr

/-- `has_option`. -/
def has_option (file : Option (List (String × Json))) (now : ℚ) (st : SettSt)
    (o : String) : Except SErr (Bool × SettSt) :=
  let r := get_settings file now st
  match objGet r.1 "options" with
  | none => .error .missingSection
  | some (.dict a) => .ok ((objGet (heapGet r.2.heap a) o).isSome, r.2)
  | some _ => .error .typeErr

/-- Python `set_option` (the Lean keyword forces the camel-case name): mutates
the (shared) options dict in the heap, then `set_settings` with the blob
returned by `get_settings`. -/
def setOption (file : Option (List (String × Json))) (now : ℚ) (st : SettSt)
    (o : String) (v : JVal) : Except SErr SettSt :=
  let r := get_settings file now st
  match objGet r.1 "options" with
  | none => .error .missingSection
  | some (.dict a) =>
    let st2 := { r.2 with heap := heapSet r.2.heap a (objSet (heapGet r.2.heap a) o v) }
    .ok (set_settings r.1 now st2)
  | some _ => .error .typeErr

/-- `remove_option`: raises when the option is absent, else deletes it from the
(shared) options dict and calls `set_settings`. -/
def remove_option (file : Option (List (String × Json))) (now : ℚ) (st : SettSt)
    (o : String) : Except SErr SettSt :=
  let r := get_settings file now st
  match objGet r.1 "options" with
  | none => .error .missingSection
  | some (.dict a) =>
    if (objGet (heapGet r.2.heap a) o).isSome then
      let st2 := { r.2 with heap := heapSet r.2.heap a (objDel (heapGet r.2.heap a) o) }
      .ok (set_settings r.1 now st2)
    else .error (.missingOption o)
  | some _ => .error .typeErr

/-- `get_options`: returns the whole `options` value (a shared reference when
it is a dict). -/
def get_options (file : Option (List (String × Json))) (now : ℚ) (st : SettSt) :
    Except SErr (JVal × SettSt) :=
  let r := get_settings file now st
  match objGet r.1 "options" with
  | none => .error .missingSection
  | some v => .ok (v, r.2)

/-- One successful `get_price` call per basket constituent, at descending fuel,
threading the PriceNetwork state — exactly the shape of the
`_get_basket_value` loop.  `BasketSteps env toA gl f st entries ps st2` says
the loop over `entries` starting in state `st` performs calls that return the
prices `ps` and finishes in state `st2`. -/
inductive BasketSteps (env : Env) (toA : String) (gl : Bool) :
    Nat → PNState → List (String × ℚ) → List ℚ → PNState → Prop
  | nil (f : Nat) (st : PNState) : BasketSteps env toA gl (f + 1) st [] [] st
  | cons (f : Nat) (st st1 st2 : PNState) (nm : String) (amt p : ℚ)
      (rest : List (String × ℚ)) (ps : List ℚ)
      (hp : get_price f env st nm toA amt gl = (.ok p, st1))
      (hrest : BasketSteps env toA gl f st1 rest ps st2) :
      BasketSteps env toA gl (f + 1) st ((nm, amt) :: rest) (p :: ps) st2

/-- The empty PriceNetwork state: no graph built, no effects yet. -/
def st0 : PNState := { priceGraph := none, graphAccesses := 0, quoteCalls := 0 }

/-- Concrete quote source with no stored prices and a live quote of 5 for
every pair. -/
def envC1 : Env :=
  { symbols := ["A", "B"], markets := ["A/B"], baseSymbols := []
    storedPrice := fun _ => none
    quote := fun _ _ _ => .ok 5
    baskets := [], interval := some 60, now := 100 }

/-- Concrete quote source with a fresh stored price of 2 for A/B (cached at
time 50, now 100, interval 60) and a failing live quote. -/
def envC1w : Env :=
  { symbols := ["A", "B"], markets := ["A/B"], baseSymbols := []
    storedPrice := fun s => if s = "A/B" then some (2, 50) else none
    quote := fun _ _ _ => .error "down"
    baskets := [], interval := some 60, now := 100 }

/-- The price graph of `envC2`: A — B — C. -/
def gC2 : Graph :=
  { nodes := ["A", "B", "C"], edges := [("A", "B", 2), ("B", "C", 3)] }

/-- Concrete quote source with fresh stored rates r(A,B) = 2 and r(B,C) = 3. -/
def envC2 : Env :=
  { symbols := ["A", "B", "C"], markets := ["A/B", "B/C"], baseSymbols := []
    storedPrice := fun s =>
      if s = "A/B" then some (2, 90) else if s = "B/C" then some (3, 95) else none
    quote := fun _ _ _ => .error "down"
    baskets := [], interval := some 60, now := 100 }

/-- A PriceNetwork state holding the built graph A — B — C. -/
def stC2 : PNState := { priceGraph := some gC2, graphAccesses := 0, quoteCalls := 0 }

/-- A graph in which A is disconnected from B and C. -/
def gC4 : Graph := { nodes := ["A", "B", "C"], edges := [("B", "C", 1)] }

/-- Environment for the disconnected-components scenario. -/
def envC4 : Env :=
  { symbols := ["A", "B", "C"], markets := [], baseSymbols := []
    storedPrice := fun _ => none
    quote := fun _ _ _ => .error "down"
    baskets := [], interval := some 60, now := 100 }

/-- A PriceNetwork state holding the disconnected graph. -/
def stC4 : PNState := { priceGraph := some gC4, graphAccesses := 0, quoteCalls := 0 }

/-- A graph containing a node whose name itself contains a slash, directly
connected to XBT with a fresh cached rate. -/
def gC6 : Graph :=
  { nodes := ["XBT", "USD/EUR"], edges := [("XBT", "USD/EUR", 3)] }

/-- Environment in which the pair string XBT/USD/EUR (two separators)
resolves: its first-slash split is (XBT, USD/EUR) and that pair has a fresh
cached rate of 3. -/
def envC6 : Env :=
  { symbols := ["XBT", "USD/EUR"], markets := [], baseSymbols := []
    storedPrice := fun s => if s = "XBT/USD/EUR" then some (3, 90) else none
    quote := fun _ _ _ => .error "down"
    baskets := [], interval := some 60, now := 100 }

/-- A PriceNetwork state holding `gC6`. -/
def stC6 : PNState := { priceGraph := some gC6, graphAccesses := 0, quoteCalls := 0 }

/-- The price graph for the basket scenario: X — Z and Y — Z. -/
def gC7 : Graph :=
  { nodes := ["X", "Y", "Z"], edges := [("X", "Z", 3), ("Y", "Z", 5)] }

/-- Environment with the basket BKT = X with weight 2, Y with weight 1, and
fresh direct cached rates r(X,Z) = 3 and r(Y,Z) = 5. -/
def envC7 : Env :=
  { symbols := ["X", "Y", "Z"], markets := ["X/Z", "Y/Z"], baseSymbols := []
    storedPrice := fun s =>
      if s = "X/Z" then some (3, 90) else if s = "Y/Z" then some (5, 95) else none
    quote := fun _ _ _ => .error "down"
    baskets := [("BKT", [("X", 2), ("Y", 1)])], interval := some 60, now := 100 }

/-- A PriceNetwork state holding `gC7`. -/
def stC7 : PNState := { priceGraph := some gC7, graphAccesses := 0, quoteCalls := 0 }

/-- Environment with two markets: F/G has no stored price and a failing quote
(the bad market), G/H has a stored price of 4 (the good market). -/
def envC8 : Env :=
  { symbols := ["F", "G", "H"], markets := ["F/G", "G/H"], baseSymbols := []
    storedPrice := fun s => if s = "G/H" then some (4, 90) else none
    quote := fun _ _ _ => .error "down"
    baskets := [], interval := some 60, now := 100 }

/-- Environment with a stored rate of 0 for A/B (fresh) and a live quote of
7. -/
def envC10 : Env :=
  { symbols := ["A", "B"], markets := ["A/B"], baseSymbols := []
    storedPrice := fun s => if s = "A/B" then some (0, 90) else none
    quote := fun _ _ _ => .ok 7
    baskets := [], interval := some 60, now := 100 }

/-- The empty settings module state. -/
def stS0 : SettSt := { heap := [], js := [], ts := 0 }

/-- A loaded settings blob that lacks the options section. -/
def stS5 : SettSt := { heap := [], js := [("version", JVal.str "0.1")], ts := 0 }

/-- A backing settings file with no options section. -/
def fileC5 : List (String × Json) := [("program_url", Json.str "x")]

/-- The settings state obtained by seeding defaults and then mutating the
options sub-map THROUGH THE BLOB RETURNED BY get_settings: the address of the
options dict is taken from the returned copy, and the heap object at that
address is updated with a new entry.  The live module state is never touched
directly. -/
def c3_mutated : SettSt :=
  let r := get_settings none 1 stS0
  let a := match objGet r.1 "options" with
    | some (JVal.dict a) => a
    | _ => 0
  { r.2 with heap := heapSet r.2.heap a (objSet (heapGet r.2.heap a) "injected" (JVal.num 7)) }

-- Theorems

/-- A price result can only be `ok` when the underlying interpreter result is a
price. -/
theorem priceOf_eq_ok (r : Res) (p : ℚ) (h : priceOf r = .ok p) :
    r = .price (.ok p) := by
  cases r <;> simp_all [priceOf]

/-- Unpacks a wrapper equation into the raw interpreter equation. -/
theorem get_price_run (f : Nat) (env : Env) (st st1 : PNState) (nm toA : String)
    (amt p : ℚ) (gl : Bool) (hp : get_price f env st nm toA amt gl = (.ok p, st1)) :
    run env f (.getPrice nm toA amt gl) st = (.price (.ok p), st1) := by
  have h1 : priceOf (run env f (.getPrice nm toA amt gl) st).1 = .ok p := by
    have := congrArg Prod.fst hp
    simpa [get_price] using this
  have h2 : (run env f (.getPrice nm toA amt gl) st).2 = st1 := by
    have := congrArg Prod.snd hp
    simpa [get_price] using this
  have h3 := priceOf_eq_ok _ _ h1
  have h4 : run env f (.getPrice nm toA amt gl) st
      = ((run env f (.getPrice nm toA amt gl) st).1,
         (run env f (.getPrice nm toA amt gl) st).2) := rfl
  rw [h4, h3, h2]

/-- The basket-sum loop adds up the per-constituent `get_price` results. -/
theorem basketSum_spec (env : Env) (toA : String) (gl : Bool) :
    ∀ (f : Nat) (st : PNState) (entries : List (String × ℚ)) (ps : List ℚ)
      (st2 : PNState), BasketSteps env toA gl f st entries ps st2 →
      ∀ acc : ℚ, run env f (.basketSum entries toA gl acc) st =
        (.price (.ok (acc + ps.sum)), st2) := by
  intro f st entries ps st2 h
  induction h with
  | nil f st => intro acc; simp [run]
  | cons f st st1 st2 nm amt p rest ps hp hrest ih =>
    intro acc
    have hr := get_price_run f env st st1 nm toA amt p gl hp
    simp only [run, hr, priceOf]
    rw [ih (acc + p)]
    simp [List.sum_cons, add_assoc]

/-- C7: for every defined basket and target asset, `_get_basket_value` returns
the sum, over every (constituent, weight) pair of the basket, of
`get_price(constituent, target, weight, use_last_known)` — the prices `ps`
obtained by the successive `get_price` calls (threading the network state) add
up to the basket's value.  In particular a basket of X with weight 2 and Y with
weight 1 priced in Z yields `get_price(X,Z,2) + get_price(Y,Z,1)`, i.e.
`2*get_price(X,Z) + get_price(Y,Z)` for cache-resolved prices (see the
witness). -/
theorem c7_basket_value_is_sum (f : Nat) (env : Env) (st st2 : PNState)
    (name toA : String) (gl : Bool) (entries : List (String × ℚ)) (ps : List ℚ)
    (hb : lookup_basket env name = some entries)
    (hs : BasketSteps env toA gl f st entries ps st2) :
    get_basket_value (f + 1) env st name toA gl = (.ok ps.sum, st2) := by
  simp only [get_basket_value, run, hb]
  rw [basketSum_spec env toA gl f st entries ps st2 hs 0]
  simp [priceOf]

/-- C9: `get_price(A, A, v)` returns `v` unchanged for every value, every
last-known flag and every network state; the state — including the
graph-access counter — is untouched, so the price graph is neither built nor
consulted. -/
theorem c9_same_asset_identity (fuel : Nat) (env : Env) (st : PNState)
    (a : String) (v : ℚ) (gl : Bool) :
    get_price (fuel + 1) env st a a v gl = (.ok v, st) := by
  simp [get_price, run, priceOf]

/-- C10: when a stored price exists for the pair but the cached rate times the
requested value is 0, `_do_get_price` ignores the cache even though the entry
is fresh (or `use_last_known` is set): because Python tests `not last_price`
(truthiness) rather than `last_price is None`, it falls through and requests a
fresh quote (the quote counter is bumped), returning the quote's answer
instead of the cached result. -/
theorem c10_zero_cache_falls_through (n : Nat) (env : Env) (st : PNState)
    (fr toA : String) (v r t i q : ℚ) (gl : Bool)
    (hint : env.interval = some i)
    (hs : env.storedPrice (fr ++ "/" ++ toA) = some (r, t))
    (hz : r * v = 0)
    (hfresh : gl = true ∨ env.now - t ≤ i)
    (hb : is_basket env fr = false)
    (hq : env.quote fr toA v = .ok q) :
    do_get_price (n + 1) env st fr toA v gl = (.ok q, bump_quote st) := by
  simp only [do_get_price, run, hint, hs, hb]
  rw [if_pos hfresh]
  simp [hz, hq, priceOf]


/-- C1 (amended): the `_do_get_price` caching policy.  With the
`price_update_interval` option set: (1) a stored price whose age is within the
interval — or any stored price when `use_last_known` is set — is reused scaled
by `value`, with no external quote (the state, including the quote counter, is
untouched), provided the scaled product is nonzero (Python truthiness, see
C10); (2) a stored price older than the interval triggers a fresh quote when
the from asset is not a basket; (3) when no stored price exists the call does
NOT fail outright, even with `use_last_known` set: it falls through past the
basket check to a fresh quote.  The check order is cache, then basket, then
quote. -/
theorem c1_cache_policy (n : Nat) (env : Env) (st : PNState) (fr toA : String)
    (v i : ℚ) (hint : env.interval = some i) :
    (∀ r t gl, env.storedPrice (fr ++ "/" ++ toA) = some (r, t) →
       (gl = true ∨ env.now - t ≤ i) → r * v ≠ 0 →
       do_get_price (n + 1) env st fr toA v gl = (.ok (r * v), st)) ∧
    (∀ r t, env.storedPrice (fr ++ "/" ++ toA) = some (r, t) →
       ¬ (env.now - t ≤ i) → is_basket env fr = false →
       do_get_price (n + 1) env st fr toA v false =
         (quote_result env fr toA v, bump_quote st)) ∧
    (env.storedPrice (fr ++ "/" ++ toA) = none → is_basket env fr = false →
       ∀ gl, do_get_price (n + 1) env st fr toA v gl =
         (quote_result env fr toA v, bump_quote st)) := by
  refine ⟨?_, ?_, ?_⟩
  · intro r t gl hs hfresh hnz
    simp only [do_get_price, run, hint, hs]
    rw [if_pos hfresh]
    simp [hnz, priceOf]
  · intro r t hs hstale hb
    simp only [do_get_price, run, hint, hs, hb]
    cases hq : env.quote fr toA v <;>
      simp [quote_result, hq, priceOf, hstale]
  · intro hs hb gl
    simp only [do_get_price, run, hint, hs, hb]
    cases hq : env.quote fr toA v <;>
      simp [quote_result, hq, priceOf]

/-- C2: when the shortest path from A to C in the (already built) price graph
is A → B → C and both hops carry fresh nonzero cached rates, `get_price(A, C,
v)` folds `_do_get_price` over the consecutive path pairs, so it returns
r(A,B) · r(B,C) · v — the product of the cached direct rates (the model
computes in exact rationals, so the floating-point tolerance of the claim is
met with equality).  The only state change is the single graph
consultation. -/
theorem c2_two_hop_composition (n : Nat) (env : Env) (st : PNState) (G : Graph)
    (A B C : String) (v r1 t1 r2 t2 i : ℚ)
    (hG : st.priceGraph = some G)
    (hpath : shortestPath G A C = some [A, B, C])
    (hint : env.interval = some i)
    (h1 : env.storedPrice (A ++ "/" ++ B) = some (r1, t1))
    (f1 : env.now - t1 ≤ i)
    (h2 : env.storedPrice (B ++ "/" ++ C) = some (r2, t2))
    (f2 : env.now - t2 ≤ i)
    (hv : v ≠ 0) (hr1 : r1 ≠ 0) (hr2 : r2 ≠ 0) :
    get_price (n + 4) env st A C v false =
      (.ok (r1 * r2 * v), { st with graphAccesses := st.graphAccesses + 1 }) := by
  have hAC : A ≠ C := by
    intro h
    subst h
    simp only [shortestPath, if_pos rfl] at hpath
    split at hpath <;> simp_all
  have hz1 : r1 * v ≠ 0 := mul_ne_zero hr1 hv
  have hz2 : r2 * (r1 * v) ≠ 0 := mul_ne_zero hr2 hz1
  obtain ⟨pg, ga, qc⟩ := st
  simp only [PNState.priceGraph] at hG
  subst hG
  have e1 : run env (n + 2) (.doGetPrice A B v false) ⟨some G, ga + 1, qc⟩ =
      (.price (.ok (r1 * v)), ⟨some G, ga + 1, qc⟩) := by
    simp only [run, hint, h1]
    rw [if_pos (Or.inr f1)]
    simp [hz1]
  have e2 : run env (n + 1) (.doGetPrice B C (r1 * v) false) ⟨some G, ga + 1, qc⟩ =
      (.price (.ok (r2 * (r1 * v))), ⟨some G, ga + 1, qc⟩) := by
    simp only [run, hint, h2]
    rw [if_pos (Or.inr f2)]
    simp [hz2]
  have hfold : run env (n + 3) (.foldHops [(A, B), (B, C)] v false)
        ⟨some G, ga + 1, qc⟩ =
      (.price (.ok (r2 * (r1 * v))), ⟨some G, ga + 1, qc⟩) := by
    rw [run, e1]
    simp only [priceOf]
    rw [run, e2]
    simp only [priceOf]
    rw [run]
  have hrun : run env (n + 4) (.getPrice A C v false) ⟨some G, ga, qc⟩ =
      (.price (.ok (r2 * (r1 * v))), ⟨some G, ga + 1, qc⟩) := by
    rw [run, if_neg hAC]
    have hpg : run env (n + 3) Call.priceGraph ⟨some G, ga, qc⟩ =
        (.graph (.ok G), ⟨some G, ga + 1, qc⟩) := rfl
    rw [hpg]
    simp only [graphOf, hpath, List.length_cons, List.length_nil, List.zip]
    norm_num
    exact hfold
  have hr : r2 * (r1 * v) = r1 * r2 * v := by ring
  simp only [get_price, hrun, priceOf, hr]

/-- C1 counterexample: the claim says that when `use_last_known` is set and no
cached entry exists the call fails; in `envC1` there is no cached entry for
A/B, `use_last_known` is set, and yet `_do_get_price` succeeds by requesting a
fresh quote (the quote counter is bumped to record the external request). -/
theorem c1_no_cache_succeeds_counterexample :
    do_get_price 2 envC1 st0 "A" "B" 1 true = (.ok 5, bump_quote st0) := by decide

/-- C1 witness: in `envC1w` the pair A/B has a stored rate of 2 cached at time
50; with now = 100 and interval 60 the entry is fresh, so the call returns
2 · 3 = 6 and the state (including the quote counter) is untouched. -/
theorem c1_cache_policy_witness :
    do_get_price 1 envC1w st0 "A" "B" 3 false = (.ok 6, st0) := by
  have h := (c1_cache_policy 0 envC1w st0 "A" "B" 3 60 rfl).1 2 50 false
    (by decide) (Or.inr (by decide)) (by norm_num)
  norm_num at h
  exact h

/-- C2 witness: in `envC2` with the built graph A — B — C, the shortest path
from A to C is A → B → C, the cached rates are 2 and 3, and `get_price`
returns their product 6. -/
theorem c2_two_hop_witness :
    get_price 4 envC2 stC2 "A" "C" 1 false =
      (.ok 6, { stC2 with graphAccesses := 1 }) := by
  have h := c2_two_hop_composition 0 envC2 stC2 gC2 "A" "B" "C" 1 2 90 3 95 60
    rfl (by decide) rfl (by decide) (by decide) (by decide) (by decide)
    (by norm_num) (by norm_num) (by norm_num)
  norm_num at h
  exact h

/-- C4: with A and B in disconnected components of the (already built) price
graph, `get_price("A", "B")` propagates the graph library's `NetworkXNoPath`
exception — which is neither a `PriceNetworkError` nor any
`PriceSourceError` — because `nx.shortest_path` raises before the code's own
`raise PriceNetworkError("No path from ...")` line can run; that line is
unreachable in the no-path case. -/
theorem c4_disconnected_raises_networkx :
    get_price 4 envC4 stC4 "A" "B" 1 false =
      (.error (.noPathNX "No path between A and B."), { stC4 with graphAccesses := 1 }) ∧
    is_price_network_err (.noPathNX "No path between A and B.") = false ∧
    is_price_source_err (.noPathNX "No path between A and B.") = false := by decide

/-- C7 witness: the basket BKT of X with weight 2 and Y with weight 1, priced
in Z with fresh direct cached rates r(X,Z) = 3 and r(Y,Z) = 5, is worth
`get_price(X,Z,2) + get_price(Y,Z,1)` = 2·3 + 1·5 = 11, i.e.
2·get_price(X,Z) + get_price(Y,Z). -/
theorem c7_basket_value_witness :
    get_basket_value 7 envC7 stC7 "BKT" "Z" false =
      (.ok 11, { priceGraph := some gC7, graphAccesses := 2, quoteCalls := 0 }) := by
  have hs : BasketSteps envC7 "Z" false 6 stC7 [("X", 2), ("Y", 1)] [6, 5]
      ⟨some gC7, 2, 0⟩ :=
    BasketSteps.cons 5 stC7 ⟨some gC7, 1, 0⟩ ⟨some gC7, 2, 0⟩ "X" 2 6 _ _
      (by decide)
      (BasketSteps.cons 4 ⟨some gC7, 1, 0⟩ ⟨some gC7, 2, 0⟩ ⟨some gC7, 2, 0⟩ "Y" 1 5 _ _
        (by decide)
        (BasketSteps.nil 3 ⟨some gC7, 2, 0⟩))
  have h := c7_basket_value_is_sum 6 envC7 stC7 ⟨some gC7, 2, 0⟩ "BKT" "Z" false
    [("X", 2), ("Y", 1)] [6, 5] (by decide) hs
  have hsum : ([6, 5] : List ℚ).sum = 11 := by
    norm_num [List.sum_cons, List.sum_nil]
  rw [hsum] at h
  exact h

/-- C10 witness: A/B has a fresh stored rate of 0; `_do_get_price` ignores it
(truthiness) and returns the live quote 7 instead, bumping the quote
counter. -/
theorem c10_zero_cache_witness :
    do_get_price 1 envC10 st0 "A" "B" 1 false = (.ok 7, bump_quote st0) :=
  c10_zero_cache_falls_through 0 envC10 st0 "A" "B" 1 0 90 60 7 false
    rfl (by decide) (by norm_num) (Or.inr (by decide)) (by decide) rfl

/-- C8: during `_generate_graph`, a market whose price resolution fails with a
quote-source error (here the first market: no stored price, from-asset not a
basket, live quote fails with `msg`) is omitted from the graph and recorded in
the dropped-market diagnostics, while a market that resolves (here the second,
from its stored price) still contributes its edge weighted with the resolved
price — and the whole build returns successfully: one market's failure never
aborts the rebuild. -/
theorem c8_fault_tolerant_build (n : Nat) (env : Env) (st : PNState)
    (f0 f1 g0 g1 : String) (p tg i : ℚ) (msg : String)
    (hb : env.baskets = [])
    (hm : env.markets = [f0 ++ "/" ++ f1, g0 ++ "/" ++ g1])
    (hsf : py_split_all (f0 ++ "/" ++ f1) = [f0, f1])
    (hsg : py_split_all (g0 ++ "/" ++ g1) = [g0, g1])
    (hnf : env.storedPrice (f0 ++ "/" ++ f1) = none)
    (hint : env.interval = some i)
    (hq : env.quote f0 f1 1 = .error msg)
    (hbf : is_basket env f0 = false)
    (hst : env.storedPrice (g0 ++ "/" ++ g1) = some (p, tg))
    (hn0 : env.symbols.contains g0 = true)
    (hn1 : env.symbols.contains g1 = true) :
    generate_graph (n + 4) env st =
      (.ok { graph := { nodes := env.symbols, edges := [(g0, g1, p)] }
             goodMarkets := [(g0, g1, p)]
             badMarkets := [f0 ++ "/" ++ f1]
             errorMsgs := [f0 ++ "/" ++ f1 ++ ": " ++ msg] },
       bump_quote st) := by
  have hbad : run env (n + 2) (.doGetPrice f0 f1 1 false) st =
      (.price (.error (.priceSource msg)), bump_quote st) := by
    simp only [run, hint, hnf, hbf, hq]
    simp [priceOf]
  have hloop : run env (n + 3)
      (.marketLoop [f0 ++ "/" ++ f1, g0 ++ "/" ++ g1] ⟨env.symbols, []⟩ [] [] []) st =
      (.build (.ok { graph := { nodes := env.symbols, edges := [(g0, g1, p)] }
                     goodMarkets := [(g0, g1, p)]
                     badMarkets := [f0 ++ "/" ++ f1]
                     errorMsgs := [f0 ++ "/" ++ f1 ++ ": " ++ msg] }),
       bump_quote st) := by
    rw [run, hsf, hnf]
    simp only [hbad, priceOf, is_price_source_err, err_message, if_true, List.nil_append]
    rw [run, hsg, hst]
    simp only []
    rw [run]
    have m0 : g0 ∈ env.symbols := by simpa using hn0
    have m1 : g1 ∈ env.symbols := by simpa using hn1
    have haddE : addEdge ⟨env.symbols, []⟩ g0 g1 p = ⟨env.symbols, [(g0, g1, p)]⟩ := by
      simp [addEdge, addNode, m0, m1]
    rw [haddE]
    simp
  have hpr : run env (n + 2) (.probe [] []) st = (.strs (.ok []), st) := rfl
  have hmk : run env (n + 3) .markets st = (.strs (.ok env.markets), st) := by
    rw [run, hb]
    simp only [List.map_nil, List.flatMap_nil, hpr, strsOf, List.nil_append]
  have hsym : get_symbols env = env.symbols := by simp [get_symbols, hb]
  have hrun : run env (n + 4) Call.genGraph st =
      (.build (.ok { graph := { nodes := env.symbols, edges := [(g0, g1, p)] }
                     goodMarkets := [(g0, g1, p)]
                     badMarkets := [f0 ++ "/" ++ f1]
                     errorMsgs := [f0 ++ "/" ++ f1 ++ ": " ++ msg] }),
       bump_quote st) := by
    rw [run, hmk]
    simp only [strsOf, hsym, hm]
    exact hloop
  simp only [generate_graph, hrun, buildOf]

/-- C8 witness: in `envC8` the market F/G fails (no cache, quote error "down")
and G/H resolves from its stored price 4: the build succeeds with exactly the
G—H edge, F/G recorded as dropped. -/
theorem c8_fault_tolerant_witness :
    generate_graph 4 envC8 st0 =
      (.ok { graph := { nodes := ["F", "G", "H"], edges := [("G", "H", 4)] }
             goodMarkets := [("G", "H", 4)]
             badMarkets := ["F/G"]
             errorMsgs := ["F/G: down"] },
       bump_quote st0) :=
  c8_fault_tolerant_build 0 envC8 st0 "F" "G" "G" "H" 4 90 60 "down"
    rfl rfl (by decide) (by decide) (by decide) rfl rfl (by decide) (by decide)
    (by decide) (by decide)

/-- Scanning a slash-free list never splits. -/
theorem splitOnceAux_of_not_mem :
    ∀ (cs acc : List Char), '/' ∉ cs → splitOnceAux cs acc = none := by
  intro cs
  induction cs with
  | nil => intro acc _; rfl
  | cons c rest ih =>
    intro acc h
    have hc : ¬ c = '/' := fun hc => h (by simp [hc])
    have hr : '/' ∉ rest := fun hr => h (List.mem_cons_of_mem c hr)
    simp only [splitOnceAux, if_neg hc]
    exact ih (c :: acc) hr

/-- Scanning splits at the first slash. -/
theorem splitOnceAux_first_slash (post : List Char) :
    ∀ (pre acc : List Char), '/' ∉ pre →
      splitOnceAux (pre ++ '/' :: post) acc =
        some (String.mk (acc.reverse ++ pre), String.mk post) := by
  intro pre
  induction pre with
  | nil => intro acc _; simp [splitOnceAux]
  | cons c rest ih =>
    intro acc h
    have hc : ¬ c = '/' := fun hc => h (by simp [hc])
    have hr : '/' ∉ rest := fun hr => h (List.mem_cons_of_mem c hr)
    rw [List.cons_append, splitOnceAux, if_neg hc, ih (c :: acc) hr]
    simp

/-- C6 (amended): `price` splits the pair string at the FIRST separator only
(Python `string.split(s, "/", 1)`).  A string with no slash at all raises
`PriceNetworkError` (the spec's ParseError); any string of the shape
`pre/post` with no slash in `pre` — `post` may contain further slashes —
delegates to `get_price` on the whitespace-stripped pieces. -/
theorem c6_price_parsing (fuel : Nat) (env : Env) (st : PNState) (s : String)
    (v : ℚ) (gl : Bool) :
    ('/' ∉ s.toList →
       price fuel env st s v gl =
         (.error (.priceNetwork ("Invalid trade_pair_str " ++ s)), st)) ∧
    (∀ pre post : List Char, s.toList = pre ++ '/' :: post → '/' ∉ pre →
       price fuel env st s v gl =
         get_price fuel env st (py_strip (String.mk pre)) (py_strip (String.mk post))
           v gl) := by
  constructor
  · intro h
    have h2 : '/' ∉ s.data := h
    simp [price, py_split_once, splitOnceAux_of_not_mem s.data [] h2]
  · intro pre post hsplit hmem
    have hsp : py_split_once s = [String.mk pre, String.mk post] := by
      unfold py_split_once
      rw [show s.toList = pre ++ '/' :: post from hsplit,
        splitOnceAux_first_slash post pre [] hmem]
      simp
    simp [price, hsp]

/-- C6 witness: a pair string with exactly one separator (and surrounding
whitespace) delegates to `get_price` on the stripped symbols; concretely, in
`envC2` the call resolves A/B's fresh cached rate 2 scaled by the value 2. -/
theorem c6_price_parsing_witness :
    price 4 envC2 stC2 " A /B" 2 false = get_price 4 envC2 stC2 "A" "B" 2 false ∧
    get_price 4 envC2 stC2 "A" "B" 2 false = (.ok 4, { stC2 with graphAccesses := 1 }) := by
  constructor
  · have h := (c6_price_parsing 4 envC2 stC2 " A /B" 2 false).2
      [' ', 'A', ' '] ['B'] (by decide) (by decide)
    exact h
  · decide

/-- C6 counterexample: the claim says any pair string without exactly one
separator raises ParseError; but "XBT/USD/EUR" has two separators and `price`
does not raise — it splits at the first slash and resolves the pair
(XBT, USD/EUR) from the graph, returning its fresh cached rate 3. -/
theorem c6_multi_separator_counterexample :
    price 4 envC6 stC6 "XBT/USD/EUR" 1 false =
      (.ok 3, { stC6 with graphAccesses := 1 }) := by decide

/-- Loading a JSON object allocates values but keeps the top-level keys in
order: the load is wholesale, never partial. -/
theorem allocFields_keys : ∀ (fs : List (String × Json)) (h : Heap),
    (allocFields fs h).1.map Prod.fst = fs.map Prod.fst := by
  intro fs
  induction fs with
  | nil => intro h; rfl
  | cons kv rest ih =>
    intro h
    obtain ⟨k, j⟩ := kv
    simp only [allocFields]
    simp [ih]

/-- C3 (amended): `get_settings` returns a SHALLOW copy.  (1) With a blob
loaded, the returned mapping is the very same top-level association — every
nested dict address (options, credentials, Baskets) is shared with the live
state, which is why mutating a nested sub-map through the returned blob
changes the live settings (see the counterexample); only the top-level mapping
itself is a fresh object.  (2) With no blob and no backing file it seeds the
defaults, which contain the options and credentials sections.  (3) With no
blob and an existing backing file it loads the file wholesale: the loaded blob
carries exactly the file's top-level keys, and it becomes the live state —
never a partial load. -/
theorem c3_shallow_copy (now : ℚ) (st : SettSt) :
    (∀ file, st.js ≠ [] → get_settings file now st = (st.js, st)) ∧
    (st.js = [] →
       get_settings none now st = ((init_settings now st).js, init_settings now st) ∧
       objHas (init_settings now st).js "options" = true ∧
       objHas (init_settings now st).js "credentials" = true) ∧
    (∀ fs, st.js = [] →
       get_settings (some fs) now st =
         ((allocFields fs st.heap).1,
          { heap := (allocFields fs st.heap).2, js := (allocFields fs st.heap).1,
            ts := now }) ∧
       (allocFields fs st.heap).1.map Prod.fst = fs.map Prod.fst) := by
  refine ⟨?_, ?_, ?_⟩
  · intro file hne
    have hemp : st.js.isEmpty = false := by
      cases h : st.js with
      | nil => exact absurd h hne
      | cons a l => rfl
    simp [get_settings, hemp]
  · intro he
    have hemp : st.js.isEmpty = true := by simp [he]
    refine ⟨by simp [get_settings, hemp], ?_, ?_⟩ <;>
      simp [init_settings, objHas, objGet, get_default_options]
  · intro fs he
    have hemp : st.js.isEmpty = true := by simp [he]
    exact ⟨by simp [get_settings, hemp], allocFields_keys fs st.heap⟩

/-- C3 witness: on a state with a loaded blob, `get_settings` hands back the
identical top-level association list and leaves the state unchanged. -/
theorem c3_shallow_copy_witness :
    get_settings none 5 stS5 = (stS5.js, stS5) :=
  (c3_shallow_copy 5 stS5).1 none (by decide)

/-- C3 counterexample: the claim says mutating any part of the returned blob —
including nested sub-maps — never changes the live settings.  `c3_mutated`
mutates the options dict at the address found in the blob RETURNED by
`get_settings` (never touching the module state directly), and afterwards the
live settings answer `has_option "injected"` with `true` and `get_option`
with the injected value; before the mutation the live settings had no such
option.  The copy is shallow, not deep. -/
theorem c3_nested_mutation_counterexample :
    has_option none 2 c3_mutated "injected" = .ok (true, c3_mutated) ∧
    get_option none 2 c3_mutated "injected" = .ok (JVal.num 7, c3_mutated) ∧
    has_option none 2 (get_settings none 1 stS0).2 "injected" =
      .ok (false, (get_settings none 1 stS0).2) := by decide

/-- C5 (amended): after `init_settings` the options sub-map is present, and
each of the five option accessors fails with the missing-section
`SettingsError` whenever the loaded blob lacks the options sub-map.  But the
invariant is NOT re-established on every load: a backing file without an
options section loads verbatim (see the counterexample). -/
theorem c5_options_invariant (file : Option (List (String × Json))) (now : ℚ)
    (st : SettSt) (o : String) (v : JVal) :
    objHas (init_settings now st).js "options" = true ∧
    (st.js ≠ [] → objHas st.js "options" = false →
       get_option file now st o = .error .missingSection ∧
       setOption file now st o v = .error .missingSection ∧
       has_option file now st o = .error .missingSection ∧
       remove_option file now st o = .error .missingSection ∧
       get_options file now st = .error .missingSection) := by
  constructor
  · simp [init_settings, objHas, objGet]
  · intro hne habs
    have hemp : st.js.isEmpty = false := by
      cases h : st.js with
      | nil => exact absurd h hne
      | cons a l => rfl
    have hset : get_settings file now st = (st.js, st) := by simp [get_settings, hemp]
    have hnone : objGet st.js "options" = none := by
      simp only [objHas] at habs
      cases h : objGet st.js "options" with
      | none => rfl
      | some x => rw [h] at habs; simp at habs
    refine ⟨?_, ?_, ?_, ?_, ?_⟩ <;>
      simp [get_option, setOption, has_option, remove_option, get_options, hset, hnone]

/-- C5 witness: on a loaded blob without an options section, all five
accessors raise the missing-section error, while `init_settings` always
produces a blob with the options section. -/
theorem c5_options_invariant_witness :
    objHas (init_settings 1 stS5).js "options" = true ∧
    get_option none 1 stS5 "x" = .error .missingSection ∧
    setOption none 1 stS5 "x" (JVal.num 1) = .error .missingSection ∧
    has_option none 1 stS5 "x" = .error .missingSection ∧
    remove_option none 1 stS5 "x" = .error .missingSection ∧
    get_options none 1 stS5 = .error .missingSection := by
  have h := c5_options_invariant none 1 stS5 "x" (JVal.num 1)
  have h2 := h.2 (by decide) (by decide)
  exact ⟨h.1, h2.1, h2.2.1, h2.2.2.1, h2.2.2.2.1, h2.2.2.2.2⟩

/-- C5 counterexample: loading a backing file with no options section yields
live settings WITHOUT the options sub-map — the component does not re-establish
the invariant on load — and the accessors then raise the missing-section
error. -/
theorem c5_load_without_options_counterexample :
    (get_settings (some fileC5) 1 stS0).2.js = [("program_url", JVal.str "x")] ∧
    objHas (get_settings (some fileC5) 1 stS0).2.js "options" = false ∧
    get_option (some fileC5) 1 stS0 "settings_update_interval" =
      .error .missingSection := by decide
